import Mathlib

/-!
Shallow embedding of the maintenance core of the opensourcegames repository
(`code/maintenance_entries.py`, with vocabulary constants from
`code/utils/constants.py`), together with proofs settling the frozen claims
about its specification.

Conventions of the embedding:
* Python strings are Lean `String`s; where positional scanning matters
  (the README regex) we work on the underlying `List Char`.
* Machine floats (`0.8`, percentage ratios) are modelled as `ℚ`.
* An entry (a Python dict) is modelled as a structure holding exactly the
  fields the analysed operations touch; values of multi-valued fields are
  the `.value` strings, except `Download` whose per-value comment matters.
* Python `list.sort` (a stable sort) is modelled by `List.insertionSort`,
  which is stable for total preorders, hence produces the same list.
* Side effects (file deletions/writes, console reports) are modelled as
  explicit action values returned by the operations.
-/

namespace OSG

/-- Python `str.casefold` restricted to the ASCII range, as a key for
case-insensitive sorting (the repository vocabulary is ASCII). -/
def cf (s : String) : List Char := s.data.map Char.toLower

/-- One value of the `Download` field: the parsed value text together with
its optional inline comment (`content[0].comment` in `special_ops`). -/
structure DValue where
  value : String
  comment : Option String
deriving DecidableEq

/-- One database entry, holding the fields touched by the maintenance
operations.  Optional fields model presence of the corresponding top-level
key of the Python dict; `buildSystem` models the key "Build system" of the
nested `Building` mapping. -/
structure Entry where
  file : String
  title : String
  home : List String := []
  state : List String := []
  keywords : List String := []
  codeLanguage : List String := []
  codeLicense : List String := []
  codeRepository : List String := []
  play : Option (List String) := none
  download : Option (List DValue) := none
  platform : Option (List String) := none
  codeDependencies : Option (List String) := none
  buildSystem : Option (List String) := none
  note : Option String := none
deriving DecidableEq

/-- Presence of a top-level key of the entry mapping (the Python test
`field in entry`).  Per `constants.valid_fields` an entry only ever has the
keys File, Title, the valid properties, Note and Building; in particular a
top-level key "Build system" never exists — build-system values live inside
the nested `Building` mapping. -/
def Entry.hasField (e : Entry) (f : String) : Bool :=
  if f = "Play" then e.play.isSome
  else if f = "Platform" then e.platform.isSome
  else if f = "Download" then e.download.isSome
  else if f = "Code dependencies" then e.codeDependencies.isSome
  else if f = "Note" then e.note.isSome
  else if f ∈ ["File", "Title", "Home", "State", "Keywords",
               "Code repository", "Code language", "Code license",
               "Building"] then true
  else false

/-! ### Substring scanning (the README regex, Python `in` on strings) -/

/-- Index of the first occurrence of `pat` in `l` (first `i` such that
`pat` is a prefix of `l.drop i`), or `none`. -/
def firstOcc (pat : List Char) : List Char → Option Nat
  | [] => if pat.isPrefixOf [] then some 0 else none
  | c :: rest =>
    if pat.isPrefixOf (c :: rest) then some 0
    else (firstOcc pat rest).map (· + 1)

/-- Python `needle in hay` on strings (substring containment). -/
def substrB (needle hay : String) : Bool :=
  (firstOcc needle.data hay.data).isSome

/-! ### The README autogenerated region

The source compiles the regex
`(.*?)(\[comment\]: # \(start.*?end of autogenerated content\))(.*)`
with DOTALL and requires exactly one match (`re.findall`).  Because the
final group greedily consumes the rest of the text, the pattern matches at
most once: it matches iff a start-marker literal occurs and the end-marker
literal occurs after it, and it captures the text before the first such
start marker and the text after the first end marker following it. -/

def startMarkPat : List Char := "[comment]: # (start".data

def endMarkPat : List Char := "end of autogenerated content)".data

/-- The decomposition computed by the README regex: text before the
autogenerated region, the region itself, and the text after it; `none`
when the pattern does not match (`len(matches) != 1`). -/
def splitAutogen (l : List Char) : Option (List Char × List Char × List Char) :=
  match firstOcc startMarkPat l with
  | none => none
  | some i =>
    let rest := l.drop (i + startMarkPat.length)
    match firstOcc endMarkPat rest with
    | none => none
    | some j =>
      some (l.take i,
            (l.drop i).take (startMarkPat.length + j + endMarkPat.length),
            rest.drop (j + endMarkPat.length))

/-- Number of disjoint autogenerated regions in a text, scanning left to
right (fuel-indexed to make the recursion structural). -/
def countRegionsAux : Nat → List Char → Nat
  | 0, _ => 0
  | fuel + 1, l =>
    match splitAutogen l with
    | none => 0
    | some (_, _, post) => 1 + countRegionsAux fuel post

/-- Number of disjoint start-marker..end-marker regions in a text. -/
def countRegions (l : List Char) : Nat :=
  countRegionsAux (l.length + 1) l

/-! ### The four primary buckets (`update_readme_tocs`, lines 379-382) -/

/-- Entries with none of the keywords tool, framework, library. -/
def gamesOf (entries : List Entry) : List Entry :=
  entries.filter fun x =>
    !(x.keywords.contains "tool" || x.keywords.contains "framework" ||
      x.keywords.contains "library")

/-- Entries carrying the keyword "tool". -/
def toolsOf (entries : List Entry) : List Entry :=
  entries.filter fun x => x.keywords.contains "tool"

/-- Entries carrying the keyword "framework". -/
def frameworksOf (entries : List Entry) : List Entry :=
  entries.filter fun x => x.keywords.contains "framework"

/-- Entries carrying the keyword "library". -/
def librariesOf (entries : List Entry) : List Entry :=
  entries.filter fun x => x.keywords.contains "library"

/-! ### Stable sorting (Python `list.sort`)

Python `list.sort(key=k)` is a stable sort; for a total preorder a stable
sort is uniquely determined, so `List.insertionSort` (stable for total
preorders) computes the same list. -/

/-- Ordering of strings by their casefolded character sequence
(`key=str.casefold`); ties between distinct strings are left to stability. -/
def cfLe (a b : String) : Prop := cf a ≤ cf b

instance : DecidableRel cfLe := fun a b => inferInstanceAs (Decidable (cf a ≤ cf b))

instance : IsTotal String cfLe := ⟨fun a b => le_total (cf a) (cf b)⟩

instance : IsTrans String cfLe := ⟨fun _ _ _ => le_trans⟩

/-- Python `sorted`/`list.sort` with `key=str.casefold`. -/
def sortCasefold (l : List String) : List String := List.insertionSort cfLe l

/-- Python default string comparison (code-point lexicographic). -/
def plainLe (a b : String) : Prop := a.data ≤ b.data

instance : DecidableRel plainLe := fun a b => inferInstanceAs (Decidable (a.data ≤ b.data))

instance : IsTotal String plainLe := ⟨fun a b => le_total a.data b.data⟩

instance : IsTrans String plainLe := ⟨fun _ _ _ => le_trans⟩

/-- First sorting pass of the frequency tables:
`sort(key=lambda x: str.casefold(x[0]))`. -/
def nameLe (p q : String × ℚ) : Prop := cf p.1 ≤ cf q.1

instance : DecidableRel nameLe := fun p q => inferInstanceAs (Decidable (cf p.1 ≤ cf q.1))

instance : IsTotal (String × ℚ) nameLe := ⟨fun p q => le_total (cf p.1) (cf q.1)⟩

instance : IsTrans (String × ℚ) nameLe := ⟨fun _ _ _ => le_trans⟩

/-- Second sorting pass of the frequency tables: descending occurrence
(`sort(key=lambda x: x[1], reverse=True)` resp. `key=lambda x: -x[1]`). -/
def countGe (p q : String × ℚ) : Prop := q.2 ≤ p.2

instance : DecidableRel countGe := fun p q => inferInstanceAs (Decidable (q.2 ≤ p.2))

instance : IsTotal (String × ℚ) countGe := ⟨fun p q => le_total q.2 p.2⟩

instance : IsTrans (String × ℚ) countGe := ⟨fun _ _ _ h h' => le_trans h' h⟩

/-! ### Frequency tables (`update_statistics`)

All six frequency tables follow the same code path: collect the values,
take the unique ones (`set(...)`, modelled as `dedup`), attach
`values.count(v) / len(values)`, sort by casefolded name, then stably
re-sort by descending ratio. -/

/-- The common frequency-table computation of `update_statistics`. -/
def freqTable (vals : List String) : List (String × ℚ) :=
  let pairs := vals.dedup.map fun v => (v, (vals.count v : ℚ) / (vals.length : ℚ))
  List.insertionSort countGe (List.insertionSort nameLe pairs)

/-- The order the claims assert of every frequency table: strictly
descending ratio, with ties broken by casefolded name ascending. -/
def statRel (p q : String × ℚ) : Prop :=
  q.2 < p.2 ∨ (p.2 = q.2 ∧ cf p.1 ≤ cf q.1)

/-- Collapse of multiplayer-parameterised keywords
(`x if not x.startswith('multiplayer') else 'multiplayer'`). -/
def collapseMultiplayer (x : String) : String :=
  if x.startsWith "multiplayer" then "multiplayer" else x

/-- All `Code language` values of the store, in order. -/
def languagesOf (entries : List Entry) : List String :=
  entries.flatMap (·.codeLanguage)

/-- All `Code license` values of the store, in order. -/
def licensesOf (entries : List Entry) : List String :=
  entries.flatMap (·.codeLicense)

/-- All keyword values of the store with multiplayer collapsing applied,
as used by the statistics keyword table. -/
def statKeywordsOf (entries : List Entry) : List String :=
  (entries.flatMap (·.keywords)).map collapseMultiplayer

/-- All `Code dependencies` values of entries having that field. -/
def codeDependenciesOf (entries : List Entry) : List String :=
  entries.flatMap fun e => e.codeDependencies.getD []

/-- All `Build system` values of the nested `Building` mappings. -/
def buildSystemsOf (entries : List Entry) : List String :=
  entries.flatMap fun e => e.buildSystem.getD []

/-- All `Platform` values of entries having that field. -/
def platformsOf (entries : List Entry) : List String :=
  entries.flatMap fun e => e.platform.getD []

/-! ### TOC generation and `update_readme_tocs` -/

/-- One bullet row of a TOC document (`create_toc`, lines 52-55). -/
def tocRow (e : Entry) : String :=
  "- **[" ++ e.title ++ "](../" ++ e.file ++ ")** (" ++
    String.intercalate ", " (e.codeLanguage ++ e.codeLicense ++ e.state) ++ ")"

/-- The text written by `create_toc`: autogeneration header, title line,
then the rows sorted case-insensitively. -/
def createTocText (title : String) (entries : List Entry) : String :=
  "[comment]: # (autogenerated content, do not edit)\n# " ++ title ++ "\n\n" ++
    String.intercalate "\n" (sortCasefold (entries.map tocRow))

/-- The `recommended_keywords` constant of `utils/constants.py`. -/
def recommendedKeywords : List String :=
  ["action", "arcade", "adventure", "visual novel", "sports", "platform",
   "puzzle", "role playing", "simulation", "strategy", "cards", "board",
   "music", "educational", "tool", "game engine", "framework", "library",
   "remake"]

/-- The `valid_platforms` constant of `utils/constants.py`. -/
def validPlatforms : List String :=
  ["Windows", "Linux", "macOS", "Android", "iOS", "Web"]

/-- One of the `**[title](entries/tocs/file#anchor)** (count)` links of the
README summary line. -/
def entryCountLink (title file anchor : String) (n : Nat) : String :=
  "**[" ++ title ++ "](entries/tocs/" ++ file ++ "#" ++ anchor ++ ")** (" ++
    toString n ++ ")"

/-- The summary text inserted between the README markers
(`tocs_text`, lines 376-426). -/
def tocsTextOf (entries : List Entry) : String :=
  let mainPart :=
    entryCountLink "Games" "_games.md" "Games" (gamesOf entries).length ++ " - " ++
    entryCountLink "Tools" "_tools.md" "Tools" (toolsOf entries).length ++ " - " ++
    entryCountLink "Frameworks" "_frameworks.md" "Frameworks" (frameworksOf entries).length ++ " - " ++
    entryCountLink "Libraries" "_libraries.md" "Libraries" (librariesOf entries).length ++ "\n"
  let categories := recommendedKeywords.map fun keyword =>
    entryCountLink keyword.capitalize ("_" ++ keyword.replace " " "-" ++ ".md")
      (keyword.replace " " "-")
      (entries.filter fun x => x.keywords.contains keyword).length
  let platforms := validPlatforms.map fun platform =>
    entryCountLink platform ("_" ++ platform.toLower ++ ".md") platform.toLower
      (entries.filter fun x => (x.platform.getD []).contains platform).length
  mainPart ++ "\nBy category: " ++
    String.intercalate ", " (List.insertionSort plainLe categories) ++ "\n" ++
    "\nBy platform: " ++ String.intercalate ", " platforms ++ "\n"

/-- A side effect performed by `update_readme_tocs`. -/
inductive TocAction where
  | deleteTocs
  | writeToc (file : String) (content : String)
  | writeReadme (content : List Char)
deriving DecidableEq

/-- The TOC files written by `update_readme_tocs` via `create_toc`,
in program order. -/
def tocWrites (entries : List Entry) : List TocAction :=
  [TocAction.writeToc "_games.md" (createTocText "Games" (gamesOf entries)),
   TocAction.writeToc "_tools.md" (createTocText "Tools" (toolsOf entries)),
   TocAction.writeToc "_frameworks.md" (createTocText "Frameworks" (frameworksOf entries)),
   TocAction.writeToc "_libraries.md" (createTocText "Libraries" (librariesOf entries))] ++
  (recommendedKeywords.map fun keyword =>
    TocAction.writeToc ("_" ++ keyword.replace " " "-" ++ ".md")
      (createTocText keyword.capitalize
        (entries.filter fun x => x.keywords.contains keyword))) ++
  (validPlatforms.map fun platform =>
    TocAction.writeToc ("_" ++ platform.toLower ++ ".md")
      (createTocText platform
        (entries.filter fun x => (x.platform.getD []).contains platform)))

/-- Outcome of `update_readme_tocs`: the actions performed, tagged by
whether the operation raised an exception part-way. -/
inductive ReadmeOutcome where
  | raised (actions : List TocAction)
  | ok (actions : List TocAction)
deriving DecidableEq

/-- Whether the operation ended in an exception. -/
def ReadmeOutcome.isRaised : ReadmeOutcome → Bool
  | .raised _ => true
  | .ok _ => false

/-- The actions performed by the operation. -/
def ReadmeOutcome.actions : ReadmeOutcome → List TocAction
  | .raised acts => acts
  | .ok acts => acts

/-- The fixed replacement start marker written back (line 429). -/
def fullStartMarker : String :=
  "[comment]: # (start of autogenerated content, do not edit)\n"

/-- The fixed replacement end marker written back (line 429). -/
def fullEndMarker : String :=
  "\n[comment]: # (end of autogenerated content)"

/-- Shallow embedding of `EntriesMaintainer.update_readme_tocs`.  The
operation first deletes the TOC directory content unconditionally, then
splits the README at its autogenerated region (raising `RuntimeError` when
the regex does not match exactly once), then iterates `self.entries`
(raising `TypeError` when the store was never loaded, i.e. is `None`), and
finally writes the TOC files and the recombined README. -/
def update_readme_tocs (store : Option (List Entry)) (readme : List Char) :
    ReadmeOutcome :=
  match splitAutogen readme with
  | none => .raised [.deleteTocs]
  | some (pre, _, post) =>
    match store with
    | none => .raised [.deleteTocs]
    | some entries =>
      .ok ([.deleteTocs] ++ tocWrites entries ++
        [.writeReadme (pre ++ fullStartMarker.data ++ (tocsTextOf entries).data ++
          fullEndMarker.data ++ post)])

/-! ### Statistics lists (`update_statistics`) -/

/-- The `popular_code_repositories` tuple (line 538). -/
def popularCodeRepositories : List String :=
  ["github.com", "gitlab.com", "bitbucket.org", "code.sf.net", "code.launchpad.net"]

/-- Titles of entries missing both `Download` and `Play` (lines 530-535). -/
def noDownloadOrPlayTitles (entries : List Entry) : List String :=
  sortCasefold ((entries.filter fun e =>
    !(e.hasField "Download") && !(e.hasField "Play")).map (·.title))

/-- Titles of entries whose code repository values mention none of the
popular hosts (lines 541-554); the result is bound to the Python variable
`entries` that the later C/C++-CMake loop iterates over. -/
def notPopularRepoTitles (entries : List Entry) : List String :=
  sortCasefold ((entries.filter fun e =>
    !(e.codeRepository.any fun repo =>
      popularCodeRepositories.any fun popular => substrB popular repo)).map (·.title))

/-- The list printed under "C and C++ projects without build system
information" (lines 602-609).  The code tests `field not in entry` with
`field = 'Build system'` against the top-level entry mapping — which never
has such a key (build systems live in the nested Building mapping) — so
the test is satisfied by every entry. -/
def cCppWithoutBuildSystem (entries : List Entry) : List String :=
  sortCasefold ((entries.filter fun e =>
    !(e.hasField "Build system") &&
      (e.codeLanguage.contains "C" || e.codeLanguage.contains "C++")).map (·.title))

/-- The list printed under "C and C++ projects with a build system
different from CMake" (lines 611-619).  The loop iterates over the Python
variable `entries`, which at that point holds the not-on-a-popular-host
title strings, not the store; for a string `entry`, `field in entry` is a
substring test and `entry[field]` raises `TypeError`.  `none` models that
exception; otherwise no title passes the test and the list is empty. -/
def cCppNotCmakeAux (titles : List String) : Option (List String) :=
  if titles.any fun t => substrB "Build system" t then none
  else some (sortCasefold [])

/-- The "different from CMake" list as computed from the store. -/
def cCppNotCmakeOf (entries : List Entry) : Option (List String) :=
  cCppNotCmakeAux (notPopularRepoTitles entries)

/-- Sort of the inactive-entries list: first by casefolded title. -/
def inactNameLe (p q : String × Int) : Prop := cf p.1 ≤ cf q.1

instance : DecidableRel inactNameLe := fun p q => inferInstanceAs (Decidable (cf p.1 ≤ cf q.1))

instance : IsTotal (String × Int) inactNameLe := ⟨fun p q => le_total (cf p.1) (cf q.1)⟩

instance : IsTrans (String × Int) inactNameLe := ⟨fun _ _ _ => le_trans⟩

/-- Sort of the inactive-entries list: then by year, descending. -/
def inactYearGe (p q : String × Int) : Prop := q.2 ≤ p.2

instance : DecidableRel inactYearGe := fun p q => inferInstanceAs (Decidable (q.2 ≤ p.2))

instance : IsTotal (String × Int) inactYearGe := ⟨fun p q => le_total q.2 p.2⟩

instance : IsTrans (String × Int) inactYearGe := ⟨fun _ _ _ h h' => le_trans h' h⟩

/-- The data assembled into the statistics document.  Formatting into the
final markdown text is a straightforward fold over these fields; the
claims are about the computed data. -/
structure StatsDoc where
  numberEntries : Nat
  numberBeta : Nat
  numberMature : Nat
  numberInactive : Nat
  inactiveList : List (String × Int)
  languageTable : List (String × ℚ)
  licenseTable : List (String × ℚ)
  keywordTable : List (String × ℚ)
  noDownloadOrPlay : List String
  notPopularRepo : List String
  entriesWithCodeDependency : Nat
  codeDependencyTable : List (String × ℚ)
  buildSystemTable : List (String × ℚ)
  cCppWithout : List String
  cCppNotCmake : List String
  platformTable : List (String × ℚ)
deriving DecidableEq

/-- Outcome of `update_statistics`. -/
inductive StatsOutcome where
  | guardAbort
  | raisedTypeError
  | written (doc : StatsDoc)
deriving DecidableEq

/-- Shallow embedding of `EntriesMaintainer.update_statistics`.
`isInactive` and `inactiveYear` stand for `osg.is_inactive` and
`osg.extract_inactive_year`, which live outside the provided sources.
Returns `guardAbort` when the store is unloaded or empty (the falsy guard,
lines 442-444). -/
def update_statistics (isInactive : Entry → Bool) (inactiveYear : Entry → Int)
    (store : Option (List Entry)) : StatsOutcome :=
  match store with
  | none => .guardAbort
  | some entries =>
    if entries.isEmpty then .guardAbort
    else
      match cCppNotCmakeOf entries with
      | none => .raisedTypeError
      | some notCmake =>
        .written
          { numberEntries := entries.length
            numberBeta := (entries.filter fun e => e.state.contains "beta").length
            numberMature := (entries.filter fun e => e.state.contains "mature").length
            numberInactive := (entries.filter isInactive).length
            inactiveList :=
              List.insertionSort inactYearGe (List.insertionSort inactNameLe
                ((entries.filter isInactive).map fun e => (e.title, inactiveYear e)))
            languageTable := freqTable (languagesOf entries)
            licenseTable := freqTable (licensesOf entries)
            keywordTable := freqTable (statKeywordsOf entries)
            noDownloadOrPlay := noDownloadOrPlayTitles entries
            notPopularRepo := notPopularRepoTitles entries
            entriesWithCodeDependency :=
              (entries.filter fun e => e.hasField "Code dependencies").length
            codeDependencyTable := freqTable (codeDependenciesOf entries)
            buildSystemTable := freqTable (buildSystemsOf entries)
            cCppWithout := cCppWithoutBuildSystem entries
            cCppNotCmake := notCmake
            platformTable := freqTable (platformsOf entries) }

/-! ### Consistency checks (`check_inconsistencies`) -/

/-- The unique keywords compared pairwise, after multiplayer collapsing
(lines 122-134); Python builds them as `list(set(...))`. -/
def uniqueKeywordsOf (entries : List Entry) : List String :=
  ((entries.flatMap (·.keywords)).map collapseMultiplayer).dedup

/-- The pairs flagged by the nested similarity loop (lines 136-140): for
each index the later unique keywords whose similarity score strictly
exceeds 0.8.  `sim` stands for `osg.name_similarity`, which lives outside
the provided sources; the spec describes it only as a string-similarity
score on a 0-1 scale, so it is a parameter of the embedding and the float
threshold `0.8` is modelled as the rational `4/5`. -/
def simPairs (sim : String → String → ℚ) : List String → List (String × String)
  | [] => []
  | a :: rest =>
    (rest.filter fun b => (4 : ℚ) / 5 < sim a b).map (fun b => (a, b)) ++
      simPairs sim rest

/-- One finding of the Play/Platform cross-field rule, naming the entry
file it concerns. -/
inductive PlayFinding where
  | missingPlatform (file : String)
  | missingWeb (file : String)
deriving DecidableEq

/-- The entry file named by a finding. -/
def PlayFinding.file : PlayFinding → String
  | .missingPlatform f => f
  | .missingWeb f => f

/-- Whether the Play/Platform rule fires for an entry (the condition under
which lines 174-181 print a finding). -/
def playViolation (e : Entry) : Bool :=
  e.play.isSome && (e.platform.isNone || !((e.platform.getD []).contains "Web"))

/-- The finding emitted for a violating entry. -/
def playFindingOf (e : Entry) : PlayFinding :=
  if e.platform.isNone then .missingPlatform e.file else .missingWeb e.file

/-- Shallow embedding of the Play/Platform loop of `check_inconsistencies`
(lines 174-181): per entry, if `Play` is present then `Platform` must be
present and contain "Web"; one finding is printed per violating entry. -/
def playWebFindings (entries : List Entry) : List PlayFinding :=
  entries.filterMap fun e =>
    if e.play.isSome then
      if e.platform.isNone then some (.missingPlatform e.file)
      else if !((e.platform.getD []).contains "Web") then some (.missingWeb e.file)
      else none
    else none

/-! ### The remaining store-guarded operations

Each of the following methods begins with the falsy guard
`if not self.entries: print('entries not yet loaded'); return`.  An
operation result of `none` models that early return: the message is
printed and nothing is deleted, written or mutated.  Helpers of the
repository that are not under the provided sources (`osg.*`, `utils.*`,
stdlib text helpers) enter as explicit function parameters. -/

/-- Keys of `constants.general_code_dependencies_without_entry`. -/
def generalCodeDependenciesWithoutEntry : List String :=
  ["OpenGL", "GLUT", "WebGL", "Unity", ".NET", "Vulkan", "KDE Frameworks",
   "jQuery", "node.js", "GNU Guile", "tkinter"]

/-- The `constants.code_dependencies_aliases` mapping. -/
def codeDependenciesAliases : List (String × List String) :=
  [("Simple DirectMedia Layer", ["SDL", "SDL2"]),
   ("Simple and Fast Multimedia Library", ["SFML"]),
   ("Boost (C++ Libraries)", ["Boost"]),
   ("SGE Game Engine", ["SGE"]),
   ("MegaGlest", ["MegaGlest Engine"])]

/-- The valid dependency names (lines 142-150): the fixed allow-list plus,
for every entry tagged framework/library/game engine, its aliases or else
its title. -/
def validDependenciesOf (entries : List Entry) : List String :=
  generalCodeDependenciesWithoutEntry ++
    entries.flatMap fun e =>
      if e.keywords.any fun x => x = "framework" || x = "library" || x = "game engine" then
        match codeDependenciesAliases.find? fun p => p.1 = e.title with
        | some p => p.2
        | none => [e.title]
      else []

/-- Deduplication keeping first occurrences (Python dict-key order of the
`referenced_dependencies` counting dict). -/
def dedupFirst (l : List String) : List String :=
  l.foldl (fun acc x => if acc.contains x then acc else acc ++ [x]) []

/-- Descending-count order for the referenced-dependency report. -/
def depCountGe (p q : String × Nat) : Prop := q.2 ≤ p.2

instance : DecidableRel depCountGe := fun p q => inferInstanceAs (Decidable (q.2 ≤ p.2))

instance : IsTotal (String × Nat) depCountGe := ⟨fun p q => le_total q.2 p.2⟩

instance : IsTrans (String × Nat) depCountGe := ⟨fun _ _ _ h h' => le_trans h' h⟩

/-- The referenced code dependencies that are not valid dependency names,
with their reference counts, sorted by descending count (lines 152-172). -/
def unreferencedDependenciesOf (entries : List Entry) : List (String × Nat) :=
  let deps := codeDependenciesOf entries
  let valid := validDependenciesOf entries
  List.insertionSort depCountGe
    (((dedupFirst deps).map fun d => (d, deps.count d)).filter fun p =>
      !(valid.contains p.1))

/-- The findings reported by `check_inconsistencies` (a read-only scan:
it prints and never writes files). -/
structure InconsistencyFindings where
  firstPersonFiles : List String
  similarKeywordPairs : List (String × String)
  unreferencedDependencies : List (String × Nat)
  playFindings : List PlayFinding
deriving DecidableEq

/-- Shallow embedding of `EntriesMaintainer.check_inconsistencies`;
`sim` stands for `osg.name_similarity` (outside the provided sources). -/
def check_inconsistencies (sim : String → String → ℚ)
    (store : Option (List Entry)) : Option InconsistencyFindings :=
  match store with
  | none => none
  | some entries =>
    if entries.isEmpty then none
    else some
      { firstPersonFiles :=
          (entries.filter fun e => e.keywords.contains "first‐person").map (·.file)
        similarKeywordPairs := simPairs sim (uniqueKeywordsOf entries)
        unreferencedDependencies := unreferencedDependenciesOf entries
        playFindings := playWebFindings entries }

/-- Shallow embedding of `EntriesMaintainer.write_entries`;
`osg.write_entries` (outside the provided sources) re-serialises every
entry, so the successful outcome is the list of entries written back. -/
def write_entries (store : Option (List Entry)) : Option (List Entry) :=
  match store with
  | none => none
  | some entries => if entries.isEmpty then none else some entries

/-- The web-archive recovery loop of `clean_backlog` (lines 218-224):
for every included URL starting with the archive prefix, the original URL
from `url[url.index('http', 5):]`; `none` models the `ValueError` raised
when no "http" occurs from position 5 on. -/
def moreUrlsAux : List String → Option (List String)
  | [] => some []
  | url :: rest =>
    if url.startsWith "https://web.archive.org/web" then
      match firstOcc "http".data (url.data.drop 5) with
      | none => none
      | some k => (moreUrlsAux rest).map fun ms => String.mk (url.data.drop (5 + k)) :: ms
    else moreUrlsAux rest

/-- Shallow embedding of `EntriesMaintainer.clean_backlog`.  `allUrls`
stands for `osg.all_urls` (URL collection over the store), `rejectedUrls`
for the URLs parsed out of the rejected file, and `stripUrl` for
`utils.strip_url` — all outside the provided sources.  The result is
`none` on the falsy guard, `some none` when the body raises, and
`some (some text)` for the text written back to the backlog file. -/
def clean_backlog (allUrls : List Entry → List String)
    (rejectedUrls : List String) (stripUrl : String → String)
    (backlogText : String) (store : Option (List Entry)) :
    Option (Option String) :=
  match store with
  | none => none
  | some entries =>
    if entries.isEmpty then none
    else
      let included := allUrls entries ++ rejectedUrls
      match moreUrlsAux included with
      | none => some none
      | some more =>
        let stripped := ((included ++ more).map stripUrl).dedup
        let kept := (backlogText.splitOn "\n").filter fun x =>
          !(stripped.contains (stripUrl x))
        some (some (String.intercalate "\n" (sortCasefold kept.dedup)))

/-- Row ordering of the HTML table (`key=lambda x: str.casefold(x[0])`). -/
def rowLe (a b : List String) : Prop := cf (a.headD "") ≤ cf (b.headD "")

instance : DecidableRel rowLe := fun a b =>
  inferInstanceAs (Decidable (cf (a.headD "") ≤ cf (b.headD "")))

instance : IsTotal (List String) rowLe := ⟨fun a b => le_total (cf (a.headD "")) (cf (b.headD ""))⟩

instance : IsTrans (List String) rowLe := ⟨fun _ _ _ => le_trans⟩

/-- One row of the table built by `update_html` (lines 659-697);
`shorten` stands for `textwrap.shorten` at width 60, `isInactive` and
`inactiveYear` for the `osg` state helpers.  `none` models the
`IndexError` raised when a required positional field is empty. -/
def htmlRow (shorten : String → String) (isInactive : Entry → Bool)
    (inactiveYear : Entry → Int) (info : Entry) : Option (List String) := do
  let home0 ← info.home.head?
  let state0 ← info.state.head?
  let gameCell := info.title ++ " (<a href=\"" ++ home0 ++
    "\">home</a>, <a href=\"https://github.com/Trilarion/opensourcegames/blob/master/entries/" ++
    info.file ++ "\">entry</a>)"
  let noteCell := shorten (info.note.getD "")
  let downloadCell :=
    match info.download with
    | some (d :: _) => "<a href=\"" ++ d.value ++ "\">Link</a>"
    | _ => ""
  let stateCell := state0 ++ " / " ++
    (if isInactive info then "inactive since " ++ toString (inactiveYear info) else "active")
  let keywordsCell := String.intercalate ", " info.keywords
  let sourceParts :=
    (match info.codeRepository with
     | r :: _ => ["<a href=\"" ++ r ++ "\">Source</a>"]
     | [] => []) ++
    [String.intercalate ", " info.codeLanguage, String.intercalate ", " info.codeLicense]
  pure [gameCell, noteCell, downloadCell, stateCell, keywordsCell,
    String.intercalate " - " sourceParts]

/-- Shallow embedding of `EntriesMaintainer.update_html`: `none` on the
falsy guard, `some none` when a row raises, otherwise the table rows
sorted case-insensitively by game cell, as written to the JSON database
file. -/
def update_html (shorten : String → String) (isInactive : Entry → Bool)
    (inactiveYear : Entry → Int) (store : Option (List Entry)) :
    Option (Option (List (List String))) :=
  match store with
  | none => none
  | some entries =>
    if entries.isEmpty then none
    else
      match entries.mapM (htmlRow shorten isInactive inactiveYear) with
      | none => some none
      | some rows => some (some (List.insertionSort rowLe rows))

/-- The repositories considered for an entry by `update_repos`
(lines 723-728): the first value plus the later values containing "@add". -/
def reposOf (e : Entry) : List String :=
  match e.codeRepository with
  | [] => []
  | r0 :: rest => r0 :: rest.filter fun x => substrB "@add" x

/-- Python `sorted` with the default string order. -/
def sortPlain (l : List String) : List String := List.insertionSort plainLe l

/-- Shallow embedding of `EntriesMaintainer.update_repos`: classifies each
considered repository string (first space-separated token, stripped) as
git/svn/hg via the `osg` helpers (parameters, outside the provided
sources), deduplicates and sorts each class, and writes the manifest. -/
def update_repos (gitRepo svnRepo hgRepo : String → Option String)
    (store : Option (List Entry)) :
    Option (List String × List String × List String) :=
  match store with
  | none => none
  | some entries =>
    if entries.isEmpty then none
    else
      let step := fun (acc : List String × List String × List String) (repo : String) =>
        let r := (String.mk (repo.data.takeWhile fun c => c ≠ ' ')).trim
        match gitRepo r with
        | some url => (acc.1 ++ [url], acc.2.1, acc.2.2)
        | none =>
          match svnRepo r with
          | some url => (acc.1, acc.2.1 ++ [url], acc.2.2)
          | none =>
            match hgRepo r with
            | some url => (acc.1, acc.2.1, acc.2.2 ++ [url])
            | none => acc
      let c := entries.foldl (fun acc e => (reposOf e).foldl step acc) ([], [], [])
      some (sortPlain c.1.dedup, sortPlain c.2.1.dedup, sortPlain c.2.2.dedup)

/-- Shallow embedding of `EntriesMaintainer.special_ops`: drops `Download`
fields holding a single plain `@see-home` value (lines 804-810); the
successful outcome is the mutated store. -/
def special_ops (store : Option (List Entry)) : Option (List Entry) :=
  match store with
  | none => none
  | some entries =>
    if entries.isEmpty then none
    else some (entries.map fun e =>
      match e.download with
      | some [v] =>
        if v.value = "@see-home" && (v.comment.getD "").isEmpty then
          { e with download := none }
        else e
      | _ => e)

/-! ### Concrete sample inputs used by witnesses and counterexamples -/

/-- An entry tagged with both the "tool" and the "framework" keyword. -/
def eToolFramework : Entry :=
  { file := "tf.md", title := "TF", home := ["https://tf.example.org/"],
    state := ["mature"], keywords := ["tool", "framework"],
    codeLanguage := ["C"], codeLicense := ["MIT"],
    codeRepository := ["https://github.com/x/tf"] }

/-- A C entry whose nested Building mapping names the Make build system. -/
def eFooMake : Entry :=
  { file := "foo.md", title := "Foo", home := ["https://foo.example.org/"],
    state := ["mature"], keywords := ["strategy"],
    codeLanguage := ["C"], codeLicense := ["MIT"],
    codeRepository := ["https://example.org/foo"],
    buildSystem := some ["Make"] }

/-- An entry with a `Play` field but no `Platform` field. -/
def ePlayNoPlatform : Entry :=
  { file := "play.md", title := "P", home := ["https://p.example.org/"],
    state := ["beta"], keywords := ["arcade"],
    codeLanguage := ["JavaScript"], codeLicense := ["MIT"],
    codeRepository := ["https://github.com/x/p"],
    play := some ["https://p.example.org/run"] }

/-- An unremarkable entry without a `Play` field. -/
def eOkA : Entry :=
  { file := "a.md", title := "A", home := ["https://a.example.org/"],
    state := ["mature"], keywords := ["puzzle"],
    codeLanguage := ["Python"], codeLicense := ["GPL-3.0"],
    codeRepository := ["https://github.com/x/a"] }

/-- Another unremarkable entry without a `Play` field. -/
def eOkB : Entry :=
  { file := "b.md", title := "B", home := ["https://b.example.org/"],
    state := ["beta"], keywords := ["board"],
    codeLanguage := ["Java"], codeLicense := ["MIT"],
    codeRepository := ["https://github.com/x/b"] }

/-- A README with exactly one autogenerated region. -/
def sampleReadme : List Char :=
  ("A\n[comment]: # (start of autogenerated content, do not edit)\nX\n" ++
   "[comment]: # (end of autogenerated content)\nB").data

/-- A README containing two autogenerated regions. -/
def twoRegionReadme : List Char :=
  ("A\n[comment]: # (start of autogenerated content, do not edit)\nX\n" ++
   "[comment]: # (end of autogenerated content)\nMID\n" ++
   "[comment]: # (start of autogenerated content, do not edit)\nY\n" ++
   "[comment]: # (end of autogenerated content)\nB").data

/-- Decomposition pieces of a well-formed README used by the frame-effect
witness: the text before the region. -/
def w5pre : List Char := "A\n".data

/-- The region text strictly between the start-marker prefix and the
end-marker literal. -/
def w5core : List Char :=
  " of autogenerated content, do not edit)\nX\n[comment]: # (".data

/-- The text after the region. -/
def w5post : List Char := "\nB".data

/-- The witness README assembled from the pieces. -/
def w5readme : List Char := w5pre ++ startMarkPat ++ w5core ++ endMarkPat ++ w5post

/-! ## Claim theorems -/

/-- Claim C1, counterexample: the four buckets of `update_readme_tocs` are
independent keyword filters, not a precedence partition — an entry tagged
with both "tool" and "framework" lands in the tools bucket AND in the
frameworks bucket, contradicting disjointness and "lands in the tools
bucket only". -/
theorem c1_counterexample :
    toolsOf [eToolFramework] = [eToolFramework] ∧
    frameworksOf [eToolFramework] = [eToolFramework] := by
  constructor <;> rfl

/-- Claim C1, amended: every entry lands in at least one bucket; the games
bucket is exactly the entries carrying none of the keywords tool,
framework, library, and is disjoint from the other three; but tools,
frameworks and libraries are independent keyword-presence filters that may
overlap, so an entry tagged with several of these keywords lands in
several buckets. -/
theorem c1_amended (entries : List Entry) (e : Entry) (he : e ∈ entries) :
    (e ∈ gamesOf entries ∨ e ∈ toolsOf entries ∨ e ∈ frameworksOf entries ∨
      e ∈ librariesOf entries) ∧
    (e ∈ toolsOf entries ↔ "tool" ∈ e.keywords) ∧
    (e ∈ frameworksOf entries ↔ "framework" ∈ e.keywords) ∧
    (e ∈ librariesOf entries ↔ "library" ∈ e.keywords) ∧
    (e ∈ gamesOf entries ↔
      ¬("tool" ∈ e.keywords ∨ "framework" ∈ e.keywords ∨ "library" ∈ e.keywords)) ∧
    (e ∈ gamesOf entries →
      e ∉ toolsOf entries ∧ e ∉ frameworksOf entries ∧ e ∉ librariesOf entries) := by
  simp only [gamesOf, toolsOf, frameworksOf, librariesOf, List.mem_filter, he,
    true_and, List.contains, List.elem_eq_mem, Bool.not_eq_true',
    Bool.or_eq_false_iff, Bool.or_eq_true, decide_eq_true_eq,
    decide_eq_false_iff_not]
  tauto

/-- Witness for the amended C1 at a concrete store. -/
theorem c1_amended_witness :
    eToolFramework ∈ toolsOf [eToolFramework] ↔ "tool" ∈ eToolFramework.keywords :=
  (c1_amended [eToolFramework] eToolFramework (by decide)).2.1

/-- Claim C3, counterexample: invoking `update_readme_tocs` before the
store is loaded does NOT abort without side effects — the operation has no
store guard: it first clears the TOC directory and then dies with a
`TypeError` when it iterates the unloaded store. -/
theorem c3_counterexample :
    update_readme_tocs none sampleReadme = .raised [.deleteTocs] := by rfl

/-- Claim C3, amended: the guarded operations (here `write_entries` and
`update_statistics`) do report the failed precondition and return early
with no side effects when invoked before the store is loaded, but
`update_readme_tocs` performs no such check: invoked on an unloaded store
it always deletes the TOC directory content and then raises. -/
theorem c3_amended :
    write_entries none = none ∧
    (∀ isInactive inactiveYear,
      update_statistics isInactive inactiveYear none = .guardAbort) ∧
    (∀ readme, update_readme_tocs none readme = .raised [.deleteTocs]) := by
  refine ⟨rfl, fun _ _ => rfl, fun readme => ?_⟩
  unfold update_readme_tocs
  cases splitAutogen readme with
  | none => rfl
  | some x =>
    obtain ⟨pre, mid, post⟩ := x
    rfl

/-- Claim C4: what the code actually computes at the failing input — a C
entry whose Building names Make as build system.  The claim (and the
document headings) say the entry must not appear under "without build
system information" and must appear under "different from CMake"; the code
lists it under "without build system information" (it tests the top-level
key `'Build system' not in entry`, which always holds) and produces an
empty "different from CMake" list (it iterates the title strings of the
previous section instead of the store). -/
theorem c4_code_behavior :
    cCppWithoutBuildSystem [eFooMake] = ["Foo"] ∧
    cCppNotCmakeOf [eFooMake] = some [] := by
  constructor <;> rfl

/-- Helper: the per-entry conditional of the Play/Platform loop, stated
through the violation predicate. -/
lemma playWeb_fun_eq (e : Entry) :
    (if e.play.isSome then
       if e.platform.isNone then some (PlayFinding.missingPlatform e.file)
       else if !((e.platform.getD []).contains "Web") then
         some (PlayFinding.missingWeb e.file)
       else none
     else none) =
    if playViolation e then some (playFindingOf e) else none := by
  unfold playViolation playFindingOf
  by_cases hp : e.play.isSome <;> by_cases hn : e.platform.isNone <;>
    by_cases hw : (e.platform.getD []).contains "Web" <;> simp [hp, hn, hw]

/-- Helper: filtering through an optional map is map-after-filter. -/
lemma filterMap_ite_eq (p : Entry → Bool) (f : Entry → PlayFinding)
    (l : List Entry) :
    (l.filterMap fun e => if p e then some (f e) else none) =
      (l.filter p).map f := by
  induction l with
  | nil => rfl
  | cons a t ih =>
    by_cases h : p a <;> simp [List.filterMap_cons, List.filter_cons, h, ih]

/-- Helper: the Play/Platform loop emits exactly the findings of the
violating entries, in store order. -/
lemma playWebFindings_eq (entries : List Entry) :
    playWebFindings entries = (entries.filter playViolation).map playFindingOf := by
  have h1 : playWebFindings entries =
      entries.filterMap fun e =>
        if playViolation e then some (playFindingOf e) else none := by
    unfold playWebFindings
    congr 1
    funext e
    exact playWeb_fun_eq e
  rw [h1, filterMap_ite_eq]

/-- Claim C8: for every entry with `Play` present, `check_inconsistencies`
requires `Platform` to be present and to include "Web"; it reports exactly
one finding per violating entry (the findings list is the map of the
violating entries), every finding names a violating entry of the store,
and in a store of three entries where exactly one has `Play` but no
`Platform` and the others are unremarkable, exactly one finding is emitted
and it names that entry. -/
theorem c8_play_web_rule (entries : List Entry) :
    (playWebFindings entries = (entries.filter playViolation).map playFindingOf) ∧
    (∀ f ∈ playWebFindings entries, ∃ e ∈ entries,
      playViolation e = true ∧ f.file = e.file) ∧
    (∀ e1 e2 e3 : Entry, e1.play.isSome = true → e1.platform = none →
      playViolation e2 = false → playViolation e3 = false →
      playWebFindings [e2, e1, e3] = [PlayFinding.missingPlatform e1.file]) := by
  refine ⟨playWebFindings_eq entries, ?_, ?_⟩
  · intro f hf
    rw [playWebFindings_eq] at hf
    obtain ⟨e, he, rfl⟩ := List.mem_map.mp hf
    obtain ⟨he', hv⟩ := List.mem_filter.mp he
    refine ⟨e, he', hv, ?_⟩
    unfold playFindingOf
    by_cases hn : e.platform.isNone <;> simp [hn, PlayFinding.file]
  · intro e1 e2 e3 h1p h1n h2 h3
    rw [playWebFindings_eq]
    have hv1 : playViolation e1 = true := by
      simp [playViolation, h1p, h1n]
    simp [List.filter_cons, h2, h3, hv1, playFindingOf, h1n]

/-- Witness for C8 at a concrete three-entry store. -/
theorem c8_witness :
    playWebFindings [eOkA, ePlayNoPlatform, eOkB] =
      [PlayFinding.missingPlatform "play.md"] :=
  (c8_play_web_rule [eOkA, ePlayNoPlatform, eOkB]).2.2 ePlayNoPlatform eOkA eOkB
    (by decide) (by decide) (by decide) (by decide)

/-- Helper: a text contains zero autogenerated regions exactly when the
README regex fails to match. -/
lemma countRegions_eq_zero_iff (l : List Char) :
    countRegions l = 0 ↔ splitAutogen l = none := by
  unfold countRegions
  show countRegionsAux (l.length + 1) l = 0 ↔ _
  unfold countRegionsAux
  cases h : splitAutogen l with
  | none => simp
  | some x => simp

set_option maxRecDepth 8000 in
/-- Claim C2, counterexample: a README holding two autogenerated regions
is not a fatal structural error — the operation does not abort (the regex
still matches once, swallowing the second region), contradicting
"aborts if and only if ... exactly one region; the presence of more than
one is fatal". -/
theorem c2_counterexample :
    countRegions twoRegionReadme = 2 ∧
    (update_readme_tocs (some []) twoRegionReadme).isRaised = false := by
  constructor <;> rfl

/-- Claim C2, amended: with a loaded store, `update_readme_tocs` raises
(and writes nothing beyond the unconditional TOC-directory clearing) if
and only if the README contains NO autogenerated region; duplicated
regions do not abort the operation — the first region is replaced. -/
theorem c2_amended (entries : List Entry) (readme : List Char) :
    ((update_readme_tocs (some entries) readme).isRaised = true ↔
      countRegions readme = 0) ∧
    ((update_readme_tocs (some entries) readme).isRaised = true →
      (update_readme_tocs (some entries) readme).actions = [TocAction.deleteTocs]) := by
  rw [countRegions_eq_zero_iff]
  unfold update_readme_tocs
  cases h : splitAutogen readme with
  | none => exact ⟨by simp [ReadmeOutcome.isRaised], fun _ => rfl⟩
  | some x =>
    obtain ⟨pre, mid, post⟩ := x
    exact ⟨by simp [ReadmeOutcome.isRaised], by simp [ReadmeOutcome.isRaised]⟩

/-- Witness for the amended C2 at a README without any region. -/
theorem c2_amended_witness :
    (update_readme_tocs (some []) ("no marker here".data)).actions =
      [TocAction.deleteTocs] :=
  (c2_amended [] ("no marker here".data)).2 (by rfl)

/-- Helper: unfolding equation of `firstOcc` on a nonempty list. -/
lemma firstOcc_cons (pat : List Char) (c : Char) (rest : List Char) :
    firstOcc pat (c :: rest) =
      if pat.isPrefixOf (c :: rest) then some 0
      else (firstOcc pat rest).map (· + 1) := rfl

/-- Helper: when no occurrence of `pat` starts inside `p`, and `pat` is a
prefix of `q`, the first occurrence of `pat` in `p ++ q` is at `p.length`. -/
lemma firstOcc_append (pat p q : List Char)
    (hp : ∀ i < p.length, pat.isPrefixOf ((p ++ q).drop i) = false)
    (hq : pat.isPrefixOf q = true) :
    firstOcc pat (p ++ q) = some p.length := by
  induction p with
  | nil =>
    simp only [List.nil_append, List.length_nil]
    cases q with
    | nil => simp [firstOcc, hq]
    | cons c rest => simp [firstOcc, hq]
  | cons a p' ih =>
    have h0 : pat.isPrefixOf (a :: (p' ++ q)) = false := by
      have := hp 0 (Nat.succ_pos _)
      simpa using this
    have hp' : ∀ i < p'.length, pat.isPrefixOf ((p' ++ q).drop i) = false := by
      intro i hi
      have := hp (i + 1) (Nat.succ_lt_succ hi)
      simpa [List.drop_succ_cons] using this
    rw [List.cons_append, firstOcc_cons, h0]
    simp [ih hp']

/-- Helper: the README decomposition at a first region. -/
lemma splitAutogen_of_parts (pre core post : List Char)
    (h1 : ∀ i < pre.length,
      startMarkPat.isPrefixOf
        ((pre ++ startMarkPat ++ core ++ endMarkPat ++ post).drop i) = false)
    (h2 : ∀ j < core.length,
      endMarkPat.isPrefixOf ((core ++ endMarkPat ++ post).drop j) = false) :
    ∃ mid, splitAutogen (pre ++ startMarkPat ++ core ++ endMarkPat ++ post) =
      some (pre, mid, post) := by
  have hq1 : startMarkPat.isPrefixOf (startMarkPat ++ core ++ endMarkPat ++ post) = true := by
    rw [List.isPrefixOf_iff_prefix]
    exact List.prefix_append startMarkPat (core ++ endMarkPat ++ post)
  have step1 : firstOcc startMarkPat (pre ++ startMarkPat ++ core ++ endMarkPat ++ post) =
      some pre.length := by
    have := firstOcc_append startMarkPat pre (startMarkPat ++ core ++ endMarkPat ++ post)
      (by simpa using h1) hq1
    simpa using this
  have step2 : (pre ++ startMarkPat ++ core ++ endMarkPat ++ post).drop
      (pre.length + startMarkPat.length) = core ++ endMarkPat ++ post := by
    have : pre ++ startMarkPat ++ core ++ endMarkPat ++ post =
        (pre ++ startMarkPat) ++ (core ++ endMarkPat ++ post) := by
      simp [List.append_assoc]
    rw [this, List.drop_left' (by simp)]
  have hq2 : endMarkPat.isPrefixOf (endMarkPat ++ post) = true := by
    rw [List.isPrefixOf_iff_prefix]
    exact List.prefix_append endMarkPat post
  have step3 : firstOcc endMarkPat (core ++ endMarkPat ++ post) = some core.length := by
    have := firstOcc_append endMarkPat core (endMarkPat ++ post)
      (by simpa using h2) hq2
    simpa using this
  have step4 : (pre ++ startMarkPat ++ core ++ endMarkPat ++ post).take pre.length = pre := by
    have : pre ++ startMarkPat ++ core ++ endMarkPat ++ post =
        pre ++ (startMarkPat ++ core ++ endMarkPat ++ post) := by
      simp [List.append_assoc]
    rw [this, List.take_left' rfl]
  have step5 : (core ++ endMarkPat ++ post).drop (core.length + endMarkPat.length) = post := by
    have : core ++ endMarkPat ++ post = (core ++ endMarkPat) ++ post := by
      simp [List.append_assoc]
    rw [this, List.drop_left' (by simp)]
  refine ⟨((pre ++ startMarkPat ++ core ++ endMarkPat ++ post).drop pre.length).take
    (startMarkPat.length + core.length + endMarkPat.length), ?_⟩
  unfold splitAutogen
  rw [step1]
  simp only [step2, step3, step4, step5]

/-- Claim C5: for every README made of a prefix, a first autogenerated
region (start-marker literal, region body, end-marker literal) and a
suffix, `update_readme_tocs` rewrites the README to the prefix, the fixed
markers with the freshly generated summary between them, and the suffix:
all text strictly before the start marker and strictly after the end
marker is preserved verbatim. -/
theorem c5_frame (entries : List Entry) (pre core post readme : List Char)
    (hr : readme = pre ++ startMarkPat ++ core ++ endMarkPat ++ post)
    (h1 : ∀ i < pre.length, startMarkPat.isPrefixOf (readme.drop i) = false)
    (h2 : ∀ j < core.length,
      endMarkPat.isPrefixOf ((core ++ endMarkPat ++ post).drop j) = false) :
    update_readme_tocs (some entries) readme =
      .ok ([.deleteTocs] ++ tocWrites entries ++
        [.writeReadme (pre ++ fullStartMarker.data ++ (tocsTextOf entries).data ++
          fullEndMarker.data ++ post)]) := by
  subst hr
  obtain ⟨mid, hsplit⟩ := splitAutogen_of_parts pre core post h1 h2
  unfold update_readme_tocs
  rw [hsplit]

set_option maxRecDepth 8000 in
/-- Witness for C5 at a concrete README. -/
theorem c5_frame_witness :
    update_readme_tocs (some []) w5readme =
      .ok ([.deleteTocs] ++ tocWrites [] ++
        [.writeReadme (w5pre ++ fullStartMarker.data ++ (tocsTextOf []).data ++
          fullEndMarker.data ++ w5post)]) :=
  c5_frame [] w5pre w5core w5post w5readme rfl (by decide) (by decide)

/-- Helper: inserting into a list that is sorted by descending count,
already satisfies the combined order, and whose elements all dominate the
new element in the name order, preserves the combined order.  This is the
stability argument for the second sorting pass. -/
lemma orderedInsert_stable (a : String × ℚ) (L : List (String × ℚ))
    (hsort : L.Sorted countGe) (hpair : L.Pairwise statRel)
    (ha : ∀ b ∈ L, nameLe a b) :
    (L.orderedInsert countGe a).Pairwise statRel := by
  induction L with
  | nil => simp [List.orderedInsert, List.pairwise_singleton]
  | cons b L' ih =>
    simp only [List.orderedInsert]
    by_cases h : countGe a b
    · rw [if_pos h]
      refine List.pairwise_cons.mpr ⟨?_, hpair⟩
      intro c hc
      have hac : countGe a c := by
        rcases List.mem_cons.mp hc with rfl | hcL
        · exact h
        · exact IsTrans.trans _ _ _ h (List.rel_of_sorted_cons hsort c hcL)
      by_cases hca : countGe c a
      · exact Or.inr ⟨le_antisymm hca hac, ha c hc⟩
      · exact Or.inl (lt_iff_le_not_le.mpr ⟨hac, hca⟩)
    · rw [if_neg h]
      have ha' : ∀ c ∈ L', nameLe a c := fun c hc => ha c (List.mem_cons_of_mem _ hc)
      refine List.pairwise_cons.mpr
        ⟨?_, ih hsort.of_cons hpair.of_cons ha'⟩
      intro c hc
      rcases (List.mem_orderedInsert countGe).mp hc with rfl | hcL
      · exact Or.inl (not_le.mp h)
      · exact List.rel_of_pairwise_cons hpair hcL

/-- Helper: stably re-sorting a name-sorted list by descending count
produces the combined order of the claims. -/
lemma insertionSort_stable (L : List (String × ℚ)) (hp : L.Pairwise nameLe) :
    (List.insertionSort countGe L).Pairwise statRel := by
  induction L with
  | nil => simp [List.insertionSort]
  | cons a L' ih =>
    simp only [List.insertionSort]
    exact orderedInsert_stable a _ (List.sorted_insertionSort countGe L')
      (ih hp.of_cons)
      (fun b hb => List.rel_of_pairwise_cons hp
        ((List.perm_insertionSort countGe L').mem_iff.mp hb))

/-- Helper: every frequency table is ordered by descending ratio with
case-insensitive name ties ascending. -/
lemma freqTable_pairwise (vals : List String) :
    (freqTable vals).Pairwise statRel := by
  unfold freqTable
  exact insertionSort_stable _ (List.sorted_insertionSort nameLe _)

/-- Claim C6: each of the six frequency tables of the statistics document
(code language, code license, keyword, code dependency, build system,
platform) lists its unique values sorted by descending frequency, ties
broken case-insensitively by value name ascending (the two stable sorting
passes of the source combine into exactly this order). -/
theorem c6_freq_tables_sorted (entries : List Entry) :
    (freqTable (languagesOf entries)).Pairwise statRel ∧
    (freqTable (licensesOf entries)).Pairwise statRel ∧
    (freqTable (statKeywordsOf entries)).Pairwise statRel ∧
    (freqTable (codeDependenciesOf entries)).Pairwise statRel ∧
    (freqTable (buildSystemsOf entries)).Pairwise statRel ∧
    (freqTable (platformsOf entries)).Pairwise statRel :=
  ⟨freqTable_pairwise _, freqTable_pairwise _, freqTable_pairwise _,
   freqTable_pairwise _, freqTable_pairwise _, freqTable_pairwise _⟩

/-- Helper: sums of pointwise sums of naturals split. -/
lemma sum_map_add_nat {α : Type} (l : List α) (f g : α → ℕ) :
    (l.map fun x => f x + g x).sum = (l.map f).sum + (l.map g).sum := by
  induction l with
  | nil => rfl
  | cons a t ih =>
    simp only [List.map_cons, List.sum_cons, ih]
    omega

/-- Helper: over a duplicate-free list, the indicator of one element sums
to one exactly when the element is present. -/
lemma sum_map_ite_single (l : List String) (a : String) (hnd : l.Nodup) :
    (l.map fun v => if a = v then 1 else 0).sum = if a ∈ l then 1 else 0 := by
  induction l with
  | nil => simp
  | cons b t ih =>
    obtain ⟨hbt, ht⟩ := List.nodup_cons.mp hnd
    by_cases hab : a = b
    · subst hab
      have hz : (t.map fun v => if a = v then 1 else 0).sum = 0 := by
        apply List.sum_eq_zero
        intro x hx
        obtain ⟨v, hv, rfl⟩ := List.mem_map.mp hx
        have : a ≠ v := fun h => hbt (h ▸ hv)
        simp [this]
      simp [List.sum_cons, hz]
    · simp [List.sum_cons, ih ht, hab]

/-- Helper: the occurrence counts of the distinct values of a list sum to
its length. -/
lemma sum_dedup_count_nat (l : List String) :
    (l.dedup.map fun v => l.count v).sum = l.length := by
  induction l with
  | nil => rfl
  | cons a t ih =>
    have hcount : ∀ v, (a :: t).count v = t.count v + if a = v then 1 else 0 := by
      intro v
      rw [List.count_cons]
      congr 1
      simp [beq_iff_eq]
    by_cases h : a ∈ t
    · rw [List.dedup_cons_of_mem h]
      have hmap : (t.dedup.map fun v => (a :: t).count v) =
          t.dedup.map fun v => t.count v + if a = v then 1 else 0 := by
        congr 1
        funext v
        exact hcount v
      rw [hmap, sum_map_add_nat, ih, sum_map_ite_single t.dedup a (List.nodup_dedup t)]
      have : a ∈ t.dedup := List.mem_dedup.mpr h
      simp [this]
    · rw [List.dedup_cons_of_not_mem h]
      simp only [List.map_cons, List.sum_cons]
      have h1 : (a :: t).count a = 1 := by
        rw [hcount a]
        simp [List.count_eq_zero_of_not_mem h]
      have hmap : (t.dedup.map fun v => (a :: t).count v) =
          t.dedup.map fun v => t.count v + if a = v then 1 else 0 := by
        congr 1
        funext v
        exact hcount v
      rw [h1, hmap, sum_map_add_nat, ih, sum_map_ite_single t.dedup a (List.nodup_dedup t)]
      have : a ∉ t.dedup := fun hc => h (List.mem_dedup.mp hc)
      simp [this, Nat.add_comm]

/-- Helper: the rational version of the count sum. -/
lemma sum_dedup_count_rat (l : List String) :
    (l.dedup.map fun v => ((l.count v : ℕ) : ℚ)).sum = (l.length : ℚ) := by
  have hmm : (l.dedup.map fun v => ((l.count v : ℕ) : ℚ)) =
      (l.dedup.map fun v => l.count v).map (fun n : ℕ => (n : ℚ)) := by
    rw [List.map_map]
    rfl
  rw [hmm, ← Nat.cast_list_sum, sum_dedup_count_nat]

/-- Helper: the frequency table is a permutation of the raw unique-value
ratio pairs. -/
lemma freqTable_perm (vals : List String) :
    List.Perm (freqTable vals)
      (vals.dedup.map fun v => (v, (vals.count v : ℚ) / (vals.length : ℚ))) := by
  unfold freqTable
  exact (List.perm_insertionSort countGe _).trans (List.perm_insertionSort nameLe _)

/-- Helper: every table row carries exactly its value's occurrence count
divided by the total value count of the field. -/
lemma freqTable_ratio (vals : List String) :
    ∀ p ∈ freqTable vals, p.2 = (vals.count p.1 : ℚ) / (vals.length : ℚ) := by
  intro p hp
  have hmem := (freqTable_perm vals).mem_iff.mp hp
  obtain ⟨v, _, rfl⟩ := List.mem_map.mp hmem
  rfl

/-- Helper: with at least one value present, the table percentages sum to
one hundred. -/
lemma freqTable_sum (vals : List String) (h : vals ≠ []) :
    ((freqTable vals).map fun p => 100 * p.2).sum = 100 := by
  have hL : ((vals.length : ℕ) : ℚ) ≠ 0 := by
    have : vals.length ≠ 0 := fun hz => h (List.length_eq_zero.mp hz)
    exact_mod_cast this
  rw [((freqTable_perm vals).map fun p => 100 * p.2).sum_eq, List.map_map]
  have heq : ∀ v ∈ vals.dedup,
      ((fun p : String × ℚ => 100 * p.2) ∘
        fun v => (v, (vals.count v : ℚ) / (vals.length : ℚ))) v =
      (100 / (vals.length : ℚ)) * ((vals.count v : ℕ) : ℚ) := by
    intro v _
    simp only [Function.comp]
    rw [div_mul_eq_mul_div, mul_div_assoc]
  rw [List.map_congr_left heq, List.sum_map_mul_left, sum_dedup_count_rat,
    div_mul_cancel₀ _ hL]

/-- Claim C7: in every frequency table of the statistics document, the
ratio attached to a unique value equals that value's occurrence count
divided by the total count of values seen for the field across all
entries (not the entry count), and whenever at least one value is
present, the displayed percentages (`ratio * 100`) sum to 100. -/
theorem c7_freq_percentages (entries : List Entry) :
    ∀ vals ∈ [languagesOf entries, licensesOf entries, statKeywordsOf entries,
      codeDependenciesOf entries, buildSystemsOf entries, platformsOf entries],
      (∀ p ∈ freqTable vals, p.2 = (vals.count p.1 : ℚ) / (vals.length : ℚ)) ∧
      (vals ≠ [] → ((freqTable vals).map fun p => 100 * p.2).sum = 100) := by
  intro vals _
  exact ⟨freqTable_ratio vals, freqTable_sum vals⟩

/-- Witness for C7 on a store with one C entry. -/
theorem c7_witness :
    ((freqTable (languagesOf [eFooMake])).map fun p => 100 * p.2).sum = 100 :=
  (c7_freq_percentages [eFooMake] (languagesOf [eFooMake])
    (List.mem_cons_self _ _)).2 (by decide)

/-- Helper: every flagged pair consists of list members scoring above the
threshold, with the first component occurring before the second. -/
lemma simPairs_sound (sim : String → String → ℚ) (l : List String) :
    ∀ p ∈ simPairs sim l, p.1 ∈ l ∧ p.2 ∈ l ∧ (4 : ℚ) / 5 < sim p.1 p.2 := by
  induction l with
  | nil => intro p hp; cases hp
  | cons a rest ih =>
    intro p hp
    rcases List.mem_append.mp hp with h1 | h2
    · obtain ⟨b, hb, rfl⟩ := List.mem_map.mp h1
      obtain ⟨hbmem, hbsim⟩ := List.mem_filter.mp hb
      exact ⟨List.mem_cons_self a rest, List.mem_cons_of_mem _ hbmem,
        by simpa using hbsim⟩
    · obtain ⟨h1, h2', h3⟩ := ih p h2
      exact ⟨List.mem_cons_of_mem _ h1, List.mem_cons_of_mem _ h2', h3⟩

/-- Helper: over a duplicate-free keyword list, a pair of distinct members
is flagged (in one orientation) exactly when the similarity score exceeds
the threshold. -/
lemma simPairs_complete (sim : String → String → ℚ)
    (hsym : ∀ a b, sim a b = sim b a) (l : List String) (hnd : l.Nodup) :
    ∀ a ∈ l, ∀ b ∈ l, a ≠ b →
      (((a, b) ∈ simPairs sim l ∨ (b, a) ∈ simPairs sim l) ↔
        (4 : ℚ) / 5 < sim a b) := by
  induction l with
  | nil => intro a ha; cases ha
  | cons x rest ih =>
    obtain ⟨hx, hrest⟩ := List.nodup_cons.mp hnd
    intro a ha b hb hne
    have hpart : ∀ u v : String,
        (u, v) ∈ simPairs sim (x :: rest) ↔
          ((u = x ∧ v ∈ rest ∧ (4 : ℚ) / 5 < sim x v) ∨
            (u, v) ∈ simPairs sim rest) := by
      intro u v
      constructor
      · intro h
        rcases List.mem_append.mp h with h1 | h2
        · obtain ⟨c, hc, hcc⟩ := List.mem_map.mp h1
          obtain ⟨hcm, hcs⟩ := List.mem_filter.mp hc
          injection hcc with hxu hcv
          subst hxu
          subst hcv
          exact Or.inl ⟨rfl, hcm, by simpa using hcs⟩
        · exact Or.inr h2
      · intro h
        rcases h with ⟨rfl, hv, hs⟩ | h2
        · exact List.mem_append.mpr (Or.inl (List.mem_map.mpr
            ⟨v, List.mem_filter.mpr ⟨hv, by simpa using hs⟩, rfl⟩))
        · exact List.mem_append.mpr (Or.inr h2)
    rcases List.mem_cons.mp ha with rfl | haR
    · have hbR : b ∈ rest := by
        rcases List.mem_cons.mp hb with rfl | h
        · exact absurd rfl hne
        · exact h
      constructor
      · intro h
        rcases h with h | h
        · rcases (hpart a b).mp h with ⟨_, _, hs⟩ | h2
          · exact hs
          · exact absurd ((simPairs_sound sim rest (a, b) h2).1) hx
        · rcases (hpart b a).mp h with ⟨rfl, _, _⟩ | h2
          · exact absurd hbR hx
          · exact absurd ((simPairs_sound sim rest (b, a) h2).2.1) hx
      · intro hs
        exact Or.inl ((hpart a b).mpr (Or.inl ⟨rfl, hbR, hs⟩))
    · rcases List.mem_cons.mp hb with rfl | hbR
      · constructor
        · intro h
          rcases h with h | h
          · rcases (hpart a b).mp h with ⟨rfl, _, _⟩ | h2
            · exact absurd haR hx
            · exact absurd ((simPairs_sound sim rest (a, b) h2).2.1) hx
          · rcases (hpart b a).mp h with ⟨_, _, hs⟩ | h2
            · rw [hsym a b]; exact hs
            · exact absurd ((simPairs_sound sim rest (b, a) h2).1) hx
        · intro hs
          refine Or.inr ((hpart b a).mpr (Or.inl ⟨rfl, haR, ?_⟩))
          rw [← hsym a b]; exact hs
      · constructor
        · intro h
          rcases h with h | h
          · rcases (hpart a b).mp h with ⟨rfl, _, _⟩ | h2
            · exact absurd haR hx
            · exact ((ih hrest a haR b hbR hne).mp (Or.inl h2))
          · rcases (hpart b a).mp h with ⟨rfl, _, _⟩ | h2
            · exact absurd hbR hx
            · exact ((ih hrest a haR b hbR hne).mp (Or.inr h2))
        · intro hs
          rcases (ih hrest a haR b hbR hne).mpr hs with h | h
          · exact Or.inl ((hpart a b).mpr (Or.inr h))
          · exact Or.inr ((hpart b a).mpr (Or.inr h))

/-- Claim C9: `check_inconsistencies` first collapses every keyword
beginning with "multiplayer" to the canonical keyword "multiplayer" (so no
other multiplayer-prefixed keyword survives into the unique list), and
then flags a pair of distinct unique keywords (in one orientation) exactly
when their similarity score strictly exceeds the fixed threshold 0.8
(modelled as 4/5; `sim` stands for `osg.name_similarity`, assumed
symmetric as a similarity score). -/
theorem c9_keyword_similarity (sim : String → String → ℚ)
    (entries : List Entry) (hsym : ∀ a b, sim a b = sim b a) :
    (∀ k ∈ uniqueKeywordsOf entries,
      k.startsWith "multiplayer" = true → k = "multiplayer") ∧
    (∀ a ∈ uniqueKeywordsOf entries, ∀ b ∈ uniqueKeywordsOf entries, a ≠ b →
      (((a, b) ∈ simPairs sim (uniqueKeywordsOf entries) ∨
        (b, a) ∈ simPairs sim (uniqueKeywordsOf entries)) ↔
        (4 : ℚ) / 5 < sim a b)) := by
  constructor
  · intro k hk hks
    have hk' : k ∈ (entries.flatMap (·.keywords)).map collapseMultiplayer :=
      List.mem_dedup.mp hk
    obtain ⟨x, _, rfl⟩ := List.mem_map.mp hk'
    unfold collapseMultiplayer at hks ⊢
    by_cases hxs : x.startsWith "multiplayer" = true
    · rw [if_pos hxs]
    · rw [if_neg hxs] at hks
      exact absurd hks hxs
  · exact simPairs_complete sim hsym (uniqueKeywordsOf entries)
      (List.nodup_dedup _)

/-- Witness for C9 with a constant similarity score above the threshold
on a two-keyword store. -/
theorem c9_witness :
    (("puzzle", "board") ∈
        simPairs (fun _ _ => (1 : ℚ)) (uniqueKeywordsOf [eOkA, eOkB]) ∨
      ("board", "puzzle") ∈
        simPairs (fun _ _ => (1 : ℚ)) (uniqueKeywordsOf [eOkA, eOkB])) ↔
      (4 : ℚ) / 5 < (1 : ℚ) :=
  (c9_keyword_similarity (fun _ _ => (1 : ℚ)) [eOkA, eOkB] (fun _ _ => rfl)).2
    "puzzle" (by decide) "board" (by decide) (by decide)

/-- Claim C10: every store-guarded maintenance operation treats a loaded
but empty store identically to an unloaded store — the falsy guard makes
it return early (`none`/`guardAbort`, performing no write or mutation) —
and, as a consequence of the same guard, `update_statistics` only reaches
its percentage divisions with a strictly positive entry count. -/
theorem c10_falsy_guards :
    (write_entries (some []) = write_entries none ∧ write_entries none = none) ∧
    (∀ sim, check_inconsistencies sim (some []) = check_inconsistencies sim none ∧
      check_inconsistencies sim none = none) ∧
    (∀ allUrls rejectedUrls stripUrl backlogText,
      clean_backlog allUrls rejectedUrls stripUrl backlogText (some []) =
        clean_backlog allUrls rejectedUrls stripUrl backlogText none ∧
      clean_backlog allUrls rejectedUrls stripUrl backlogText none = none) ∧
    (∀ isInactive inactiveYear,
      update_statistics isInactive inactiveYear (some []) =
        update_statistics isInactive inactiveYear none ∧
      update_statistics isInactive inactiveYear none = .guardAbort) ∧
    (∀ shorten isInactive inactiveYear,
      update_html shorten isInactive inactiveYear (some []) =
        update_html shorten isInactive inactiveYear none ∧
      update_html shorten isInactive inactiveYear none = none) ∧
    (∀ gitRepo svnRepo hgRepo,
      update_repos gitRepo svnRepo hgRepo (some []) =
        update_repos gitRepo svnRepo hgRepo none ∧
      update_repos gitRepo svnRepo hgRepo none = none) ∧
    (special_ops (some []) = special_ops none ∧ special_ops none = none) ∧
    (∀ isInactive inactiveYear entries,
      update_statistics isInactive inactiveYear (some entries) ≠ .guardAbort →
        0 < entries.length) := by
  refine ⟨⟨rfl, rfl⟩, fun _ => ⟨rfl, rfl⟩, fun _ _ _ _ => ⟨rfl, rfl⟩,
    fun _ _ => ⟨rfl, rfl⟩, fun _ _ _ => ⟨rfl, rfl⟩, fun _ _ _ => ⟨rfl, rfl⟩,
    ⟨rfl, rfl⟩, ?_⟩
  intro isInactive inactiveYear entries h
  cases entries with
  | nil => exact absurd rfl h
  | cons e rest => exact Nat.succ_pos _

/-- Witness for C10: with a one-entry store the statistics operation gets
past the guard, so the guard indeed certifies a positive entry count. -/
theorem c10_witness : 0 < ([eFooMake] : List Entry).length :=
  c10_falsy_guards.2.2.2.2.2.2.2 (fun _ => false) (fun _ => 0) [eFooMake]
    (by decide)

end OSG
